import Mathlib

/-!
Verification of `doc/benchmark_generate_charts.py` (brainiac repository).

The script is embedded shallowly: report text is `List Char`, the two
`re.search` calls that split platform sections are modelled by explicit
first-occurrence searches, `re.findall` with the benchmark-line pattern is
modelled by a specialised matcher with the same backtracking behaviour,
Python dicts become association lists that preserve insertion order, and
Python runtime errors (`AttributeError` on a failed search, `ValueError`
from `int`, `KeyError`, `ZeroDivisionError`, `IndexError`) become an
explicit error type threaded through `Except`.  Character classes are the
ASCII fragment of Python's `\w`, `\s`, `\d` (the report text is ASCII).
-/

namespace Brainiac

/-- Python runtime errors that the script can raise. -/
inductive PyError where
  | valueError
  | keyError
  | zeroDivisionError
  | attributeError
  | indexError
deriving DecidableEq

/-- Execution categories recognised by `parse_section`. -/
inductive Category where
  | interpreter
  | native
  | gcc
  | clang
deriving DecidableEq

instance [DecidableEq ε] [DecidableEq α] : DecidableEq (Except ε α) := fun x y =>
  match x, y with
  | Except.ok a, Except.ok b =>
    if h : a = b then isTrue (by rw [h])
    else isFalse (by intro hh; cases hh; exact h rfl)
  | Except.error a, Except.error b =>
    if h : a = b then isTrue (by rw [h])
    else isFalse (by intro hh; cases hh; exact h rfl)
  | Except.ok _, Except.error _ => isFalse (by intro hh; cases hh)
  | Except.error _, Except.ok _ => isFalse (by intro hh; cases hh)

/-- ASCII fragment of Python's regex class `\w` (word character). -/
def isWordChar (c : Char) : Bool := c.isAlphanum || c == '_'

/-- ASCII fragment of Python's regex class `\s` (whitespace). -/
def isSpaceChar (c : Char) : Bool :=
  c == ' ' || c == '\t' || c == '\n' || c == '\r' || c == '\x0b' || c == '\x0c'

/-- Match a literal character sequence at the front of the input; on success
return the rest of the input. -/
def matchLit : List Char → List Char → Option (List Char)
  | [], s => some s
  | _ :: _, [] => none
  | p :: ps, c :: cs => if p == c then matchLit ps cs else none

/-- Index of the first occurrence of `pat` as a contiguous substring
(leftmost match position of a literal pattern, as in `re.search`). -/
def firstIdx (pat : List Char) : List Char → Option Nat
  | [] => if (matchLit pat []).isSome then some 0 else none
  | c :: cs =>
    if (matchLit pat (c :: cs)).isSome then some 0
    else (firstIdx pat cs).map (· + 1)

/-- `True` iff `pat` occurs as a contiguous substring of `s`
(Python's `pat in s`). -/
def strContains (pat s : List Char) : Bool := (firstIdx pat s).isSome

/-- The `x86_64` platform marker. -/
def xm : List Char := ("x86_64").toList

/-- The `riscv64` platform marker. -/
def rm : List Char := ("riscv64").toList

/-- Span `(start, stop)` of `re.search(r"x86_64.*?(?=riscv64|\Z)", content,
re.DOTALL)`: leftmost occurrence of `x86_64`, then the lazy `.*?` stops at
the first following occurrence of `riscv64`, or at end of text. -/
def x86_span (content : List Char) : Option (Nat × Nat) :=
  match firstIdx xm content with
  | none => none
  | some i =>
    match firstIdx rm (content.drop (i + xm.length)) with
    | none => some (i, content.length)
    | some d => some (i, i + xm.length + d)

/-- Span of `re.search(r"riscv64.*", content, re.DOTALL)`: from the leftmost
occurrence of `riscv64` to end of text. -/
def riscv_span (content : List Char) : Option (Nat × Nat) :=
  (firstIdx rm content).map (fun k => (k, content.length))

/-- `x86_section`: text of the x86_64 section; `none` models the
`AttributeError` raised by `.group(0)` when the search fails. -/
def x86_section (content : List Char) : Option (List Char) :=
  (x86_span content).map (fun ab => (content.drop ab.1).take (ab.2 - ab.1))

/-- `riscv_section`: text of the riscv64 section. -/
def riscv_section (content : List Char) : Option (List Char) :=
  (riscv_span content).map (fun ab => content.drop ab.1)

/-- Numeric value of a decimal digit string (`int` applied to a `\d+`
capture group). -/
def digitsToNat (ds : List Char) : Nat :=
  ds.foldl (fun n c => n * 10 + (c.toNat - 48)) 0

/-- Match the tail `\s+(\d+)ms` of the benchmark-line pattern; return the
captured time and the rest of the input.  `\s+` and `\d+` are forced to
their maximal runs because the following character class is disjoint. -/
def matchTail (s : List Char) : Option (Nat × List Char) :=
  let sp := s.span isSpaceChar
  if sp.1.isEmpty then none else
  let ds := sp.2.span Char.isDigit
  if ds.1.isEmpty then none else
  match matchLit (("ms").toList) ds.2 with
  | some rest => some (digitsToNat ds.1, rest)
  | none => none

/-- First regex alternative `\s+-O\d+` followed by the tail `\s+(\d+)ms`:
on success return (characters the alternative added to capture group 1,
captured time, rest).  Every sub-pattern boundary is between disjoint
character classes, so no backtracking is possible inside this branch. -/
def tryAltA (s : List Char) : Option (List Char × Nat × List Char) :=
  let sp := s.span isSpaceChar
  if sp.1.isEmpty then none else
  match matchLit (("-O").toList) sp.2 with
  | none => none
  | some r2 =>
    let ds := r2.span Char.isDigit
    if ds.1.isEmpty then none else
    match matchTail ds.2 with
    | some (t, rest) => some (sp.1 ++ ("-O").toList ++ ds.1, t, rest)
    | none => none

/-- Match the literal-and-digits block `transpile_O\d+\.c` at the front of
the input; return (matched characters, rest). -/
def matchTrans (s : List Char) : Option (List Char × List Char) :=
  match matchLit (("transpile_O").toList) s with
  | none => none
  | some r1 =>
    let ds := r1.span Char.isDigit
    if ds.1.isEmpty then none
    else
      match matchLit ((".c").toList) ds.2 with
      | some rest => some (("transpile_O").toList ++ ds.1 ++ ('.' :: 'c' :: []), rest)
      | none => none

/-- Lazy scan of `.*?transpile_O\d+\.c` followed by the tail `\s+(\d+)ms`
(the pattern is compiled without `re.DOTALL`, so `.` cannot cross a
newline).  Tries the nearest `transpile_O…` occurrence first and moves one
character right whenever the rest of the pattern fails, exactly like the
lazy quantifier. -/
def scanB : List Char → Option (List Char × Nat × List Char)
  | [] => none
  | c :: cs =>
    match matchTrans (c :: cs) with
    | some (consumed, rest1) =>
      match matchTail rest1 with
      | some (t, rest) => some (consumed, t, rest)
      | none =>
        if c == '\n' then none
        else (scanB cs).map (fun g => (c :: g.1, g.2.1, g.2.2))
    | none =>
      if c == '\n' then none
      else (scanB cs).map (fun g => (c :: g.1, g.2.1, g.2.2))

/-- Second regex alternative `\s+.*?transpile_O\d+\.c` followed by the tail.
`\s+` is taken maximal: a shorter run only moves the start of `.*?` onto
whitespace characters, where `transpile_O` cannot begin and where a newline
still blocks `.` — so backtracking `\s+` can never create a new match. -/
def tryAltB (s : List Char) : Option (List Char × Nat × List Char) :=
  let sp := s.span isSpaceChar
  if sp.1.isEmpty then none else
  (scanB sp.2).map (fun g => (sp.1 ++ g.1, g.2.1, g.2.2))

/-- Try the whole pattern
`(\w+(?:\s+-O\d+|\s+.*?transpile_O\d+\.c))\s+(\d+)ms` anchored at the
current position.  `\w+` is taken maximal: a shorter word run leaves a word
character in front, where both alternatives (each starting with `\s+`)
fail, so the greedy run is forced.  On success return (capture group 1,
captured time as a number, rest of the input after the match). -/
def tryMatchHere (s : List Char) : Option (List Char × Nat × List Char) :=
  let w := s.span isWordChar
  if w.1.isEmpty then none else
  match tryAltA w.2 with
  | some (g, t, rest) => some (w.1 ++ g, t, rest)
  | none =>
    match tryAltB w.2 with
    | some (g, t, rest) => some (w.1 ++ g, t, rest)
    | none => none

/-- Scan driver of `re.findall`: at each position try the pattern, on a
match emit the capture groups and continue after the match, otherwise shift
one character.  Fuel is the length of the input; every match consumes at
least one character, so this fuel is never exhausted. -/
def findallAux : Nat → List Char → List (List Char × Nat)
  | 0, _ => []
  | _ + 1, [] => []
  | fuel + 1, c :: cs =>
    match tryMatchHere (c :: cs) with
    | some (g, t, rest) => (g, t) :: findallAux fuel rest
    | none => findallAux fuel cs

/-- `re.findall(r"(\w+(?:\s+-O\d+|\s+.*?transpile_O\d+\.c))\s+(\d+)ms", s)`
with the time group already converted by `int`. -/
def findall (s : List Char) : List (List Char × Nat) :=
  findallAux s.length s

/-- Negative string index `s[-k]` (for `k ≥ 1`); `IndexError` when the
string is shorter than `k`. -/
def pyIndexNeg (s : List Char) (k : Nat) : Except PyError Char :=
  match s.reverse.get? (k - 1) with
  | some c => Except.ok c
  | none => Except.error PyError.indexError

/-- Python `int` applied to a single character: its value for a decimal
digit, `ValueError` otherwise. -/
def pyInt (c : Char) : Except PyError Nat :=
  if c.isDigit then Except.ok (c.toNat - 48) else Except.error PyError.valueError

/-- Category classifier of `parse_section`: the `if`/`elif` chain over
substrings of the method description, extracting the optimization level
from `method[-1]` (interpreter, native) or `method[-3]` (gcc, clang).
Returns `none` for the final `else: continue` (line dropped). -/
def classify (method : List Char) : Except PyError (Option (Nat × Category)) :=
  if strContains (("interpret").toList) method then do
    let c ← pyIndexNeg method 1
    let n ← pyInt c
    Except.ok (some (n, Category.interpreter))
  else if strContains (("compile").toList) method then do
    let c ← pyIndexNeg method 1
    let n ← pyInt c
    Except.ok (some (n, Category.native))
  else if strContains (("gcc").toList) method then do
    let c ← pyIndexNeg method 3
    let n ← pyInt c
    Except.ok (some (n, Category.gcc))
  else if strContains (("clang").toList) method then do
    let c ← pyIndexNeg method 3
    let n ← pyInt c
    Except.ok (some (n, Category.clang))
  else
    Except.ok none

/-- Lookup in a Python dict modelled as an insertion-ordered association
list (first matching key; keys are unique in every list the script
builds). -/
def dGet [DecidableEq α] (k : α) : List (α × β) → Option β
  | [] => none
  | (k2, v) :: rest => if k2 = k then some v else dGet k rest

/-- Python dict assignment `m[k] = v`: overwrite in place when the key is
present (keeping its position), append at the end otherwise. -/
def dUpd [DecidableEq α] : List (α × β) → α → β → List (α × β)
  | [], k, v => [(k, v)]
  | (k2, v2) :: rest, k, v =>
    if k2 = k then (k, v) :: rest else (k2, v2) :: dUpd rest k v

/-- BenchmarkTable: optimization level → (category → elapsed ms), as built
by `parse_section` (nested Python dicts). -/
abbrev BTable : Type := List (Nat × List (Category × Nat))

/-- Cell lookup `data[lvl][cat]` as an `Option`. -/
def cell (data : BTable) (lvl : Nat) (cat : Category) : Option Nat :=
  match dGet lvl data with
  | some row => dGet cat row
  | none => none

/-- The loop body `if opt_level not in data: data[opt_level] = {}` followed
by `data[opt_level][category] = int(time)`. -/
def insertTriple (data : BTable) (lvl : Nat) (cat : Category) (t : Nat) : BTable :=
  dUpd data lvl (dUpd ((dGet lvl data).getD []) cat t)

/-- Loop body of `parse_section`: classify one `findall` match and insert
it into the table (the final `else: continue` leaves the table unchanged,
a classifier exception aborts). -/
def tableStep (data : BTable) (mt : List Char × Nat) : Except PyError BTable := do
  match ← classify mt.1 with
  | none => pure data
  | some lc => pure (insertTriple data lc.1 lc.2 mt.2)

/-- `parse_section`: run `findall` and fold every classified match into a
table. -/
def parse_section (s : List Char) : Except PyError BTable :=
  (findall s).foldlM tableStep []

/-- Same classification pass as `parse_section`, but collecting the
classified (level, category, time) triples in text order instead of
folding them into a table. -/
def tripleStep (acc : List (Nat × Category × Nat)) (mt : List Char × Nat) :
    Except PyError (List (Nat × Category × Nat)) := do
  match ← classify mt.1 with
  | none => pure acc
  | some lc => pure (acc ++ [(lc.1, lc.2, mt.2)])

/-- The classified (level, category, time) triples of a section, in text
order. -/
def classifiedTriples (s : List Char) : Except PyError (List (Nat × Category × Nat)) :=
  (findall s).foldlM tripleStep []

/-- Fold a triple list into a table (used to restate `parse_section`). -/
def buildTable (ts : List (Nat × Category × Nat)) : BTable :=
  ts.foldl (fun d tr => insertTriple d tr.1 tr.2.1 tr.2.2) []

/-- Insert into an ascending list (helper for `sorted`). -/
def insertSorted (n : Nat) : List Nat → List Nat
  | [] => [n]
  | m :: ms => if n ≤ m then n :: m :: ms else m :: insertSorted n ms

/-- `sorted(data.keys())`. -/
def sortKeys (data : BTable) : List Nat :=
  (data.map Prod.fst).foldr insertSorted []

/-- One bar of an absolute-runtime chart: its height
`data[opt_level].get(category, 0)` and its value label, present exactly
when the height is `> 0`. -/
structure Bar where
  level : Nat
  category : Category
  value : Nat
  annotation : Option Nat
deriving DecidableEq

/-- Category order drawn by `create_bar_chart`. -/
def chartCategories (includeInterpreter : Bool) : List Category :=
  if includeInterpreter then
    [Category.interpreter, Category.native, Category.gcc, Category.clang]
  else
    [Category.native, Category.gcc, Category.clang]

/-- `create_bar_chart`: the bars it draws, one per (sorted level, chosen
category), with `value = data[opt_level].get(category, 0)` and a label only
when `value > 0`.  The function is total: the Python loop indexes `data`
only at its own keys and uses `.get` with default `0` for cells.
(Geometry, colors and the image file are presentation details out of
scope.) -/
def create_bar_chart (data : BTable) (includeInterpreter : Bool) : List Bar :=
  (sortKeys data).flatMap (fun lvl =>
    (chartCategories includeInterpreter).map (fun cat =>
      let v := (dGet cat ((dGet lvl data).getD [])).getD 0
      { level := lvl, category := cat, value := v,
        annotation := if 0 < v then some v else none }))

/-- One element of the speedup list comprehension
`baseline / data[opt][category] if category in data[opt] else 0`:
`KeyError` if `opt` is no key of `data`, the exact rational ratio when the
cell exists (with `ZeroDivisionError` on a zero time), and the number `0`
when the cell is absent. -/
def speedupElem (data : BTable) (baseline : Nat) (cat : Category) (opt : Nat) :
    Except PyError Rat :=
  match dGet opt data with
  | none => Except.error PyError.keyError
  | some row =>
    match dGet cat row with
    | some t =>
      if t = 0 then Except.error PyError.zeroDivisionError
      else Except.ok (mkRat (Int.ofNat baseline) t)
    | none => Except.ok 0

/-- Body of the `for category in categories` loop of
`create_speedup_chart`: `category in data[0]` evaluates `data[0]` (raising
`KeyError` when level 0 is absent), a category missing from the baseline
row is skipped, otherwise its ratio list is appended to the result dict. -/
def speedupStep (data : BTable) (lvls : List Nat)
    (acc : List (Category × List Rat)) (cat : Category) :
    Except PyError (List (Category × List Rat)) :=
  match dGet 0 data with
  | none => Except.error PyError.keyError
  | some row0 =>
    match dGet cat row0 with
    | none => Except.ok acc
    | some baseline => do
      let vs ← lvls.mapM (speedupElem data baseline cat)
      Except.ok (acc ++ [(cat, vs)])

/-- The category list of both chart functions. -/
def allCategories : List Category :=
  [Category.interpreter, Category.native, Category.gcc, Category.clang]

/-- The `speedups` dict of `create_speedup_chart`, with
`opt_levels = sorted(data.keys())[1:]` (everything after the smallest
key). -/
def speedups (data : BTable) : Except PyError (List (Category × List Rat)) :=
  allCategories.foldlM (speedupStep data ((sortKeys data).tail)) []

/-- One bar of a speedup chart; `create_speedup_chart` labels every bar it
draws, so no annotation field is needed. -/
structure SBar where
  level : Nat
  category : Category
  value : Rat
deriving DecidableEq

/-- The bars drawn by the speedup chart loops: position `i` of category
`cat` is skipped when `i >= len(values)` or `values[i] == 0`. -/
def speedupBars (lvls : List Nat) (sp : List (Category × List Rat)) : List SBar :=
  (List.range lvls.length).flatMap (fun i =>
    sp.filterMap (fun cv =>
      match cv.2.get? i with
      | none => none
      | some v =>
        if v = 0 then none
        else some { level := lvls.getD i 0, category := cv.1, value := v }))

/-- `create_speedup_chart`: compute the speedup dict, then draw.  The
division `bar_width = group_width / num_bars_per_group` raises
`ZeroDivisionError` when the speedup dict is empty. -/
def create_speedup_chart (data : BTable) : Except PyError (List SBar) := do
  let sp ← speedups data
  if sp.isEmpty then Except.error PyError.zeroDivisionError
  else Except.ok (speedupBars ((sortKeys data).tail) sp)

/-- The whole script after reading the report file: split sections (a
failed `re.search` makes `.group(0)` raise `AttributeError`), parse both
tables, draw the four absolute charts and the two speedup charts. -/
def generate_charts (content : List Char) :
    Except PyError (List (List Bar) × List (List SBar)) := do
  let xs ← match x86_section content with
           | some s => Except.ok s
           | none => Except.error PyError.attributeError
  let rs ← match riscv_section content with
           | some s => Except.ok s
           | none => Except.error PyError.attributeError
  let x86_data ← parse_section xs
  let riscv_data ← parse_section rs
  let c1 := create_bar_chart x86_data true
  let c2 := create_bar_chart x86_data false
  let c3 := create_bar_chart riscv_data true
  let c4 := create_bar_chart riscv_data false
  let s1 ← create_speedup_chart x86_data
  let s2 ← create_speedup_chart riscv_data
  Except.ok ([c1, c2, c3, c4], [s1, s2])

/-- Elapsed time of the last triple (in text order) carrying the given
(level, category) key: later list elements take priority.  This is the
specification-side notion "the last such occurrence" used by the
last-write-wins claim. -/
def lastWrite (lvl : Nat) (cat : Category) : List (Nat × Category × Nat) → Option Nat
  | [] => none
  | tr :: rest =>
    match lastWrite lvl cat rest with
    | some v => some v
    | none => if tr.1 = lvl ∧ tr.2.1 = cat then some tr.2.2 else none

/-- Two half-open index spans share at least one position. -/
def overlap (p q : Nat × Nat) : Prop := max p.1 q.1 < min p.2 q.2

instance (p q : Nat × Nat) : Decidable (overlap p q) := by
  unfold overlap; infer_instance

/-! ## Helper lemmas -/

/-- Dropping a prefix that ends at or before the first occurrence of a
pattern shifts the first-occurrence index by the dropped length. -/
theorem firstIdx_drop (pat s : List Char) (k d : Nat)
    (h : firstIdx pat s = some k) (hd : d ≤ k) :
    firstIdx pat (s.drop d) = some (k - d) := by
  induction d generalizing s k with
  | zero => simpa using h
  | succ d ih =>
    cases s with
    | nil =>
      rw [firstIdx] at h
      split at h
      · cases h; omega
      · cases h
    | cons c cs =>
      rw [firstIdx] at h
      split at h
      · cases h; omega
      · cases hfc : firstIdx pat cs with
        | none => rw [hfc] at h; cases h
        | some k2 =>
          rw [hfc] at h
          have hk1 : k2 + 1 = k := by simpa using h
          have hk : d ≤ k2 := by omega
          have hih := ih cs k2 hfc hk
          have harith : k - (d + 1) = k2 - d := by omega
          rw [harith]
          exact hih

/-- A pattern absent from a string is absent from every suffix. -/
theorem firstIdx_drop_none (pat s : List Char) (d : Nat)
    (h : firstIdx pat s = none) : firstIdx pat (s.drop d) = none := by
  induction d generalizing s with
  | zero => simpa using h
  | succ d ih =>
    cases s with
    | nil => exact h
    | cons c cs =>
      rw [firstIdx] at h
      split at h
      · cases h
      · cases hfc : firstIdx pat cs with
        | none => exact ih cs hfc
        | some k2 => rw [hfc] at h; cases h

theorem except_bind_ok {ε α β : Type} (a : α) (f : α → Except ε β) :
    (Except.ok a >>= f) = f a := rfl

theorem except_bind_error {ε α β : Type} (e : ε) (f : α → Except ε β) :
    ((Except.error e : Except ε α) >>= f) = Except.error e := rfl

/-- Looking a key up after a dict assignment: the assigned value for the
assigned key, the old dict's answer for every other key. -/
theorem dGet_dUpd [DecidableEq α] (m : List (α × β)) (k q : α) (v : β) :
    dGet q (dUpd m k v) = if k = q then some v else dGet q m := by
  induction m with
  | nil =>
    by_cases h : k = q <;> simp [dUpd, dGet, h]
  | cons p rest ih =>
    obtain ⟨a, b⟩ := p
    by_cases ha : a = k
    · subst ha
      by_cases hq : a = q <;> simp [dUpd, dGet, hq]
    · by_cases hq : a = q
      · subst hq
        have hk : ¬ k = a := fun hh => ha hh.symm
        simp [dUpd, dGet, ha, hk]
      · simp [dUpd, dGet, ha, hq, ih]

/-- Effect of one table insertion on an arbitrary cell. -/
theorem cell_insertTriple (d : BTable) (l : Nat) (c : Category) (t : Nat)
    (l2 : Nat) (c2 : Category) :
    cell (insertTriple d l c t) l2 c2 =
      if l = l2 ∧ c = c2 then some t else cell d l2 c2 := by
  by_cases hl : l = l2
  · subst hl
    cases hrow : dGet l d with
    | none =>
      by_cases hc : c = c2 <;>
        simp [cell, insertTriple, dGet_dUpd, hrow, hc, dGet]
    | some row =>
      by_cases hc : c = c2 <;>
        simp [cell, insertTriple, dGet_dUpd, hrow, hc]
  · have hcon : ¬ (l = l2 ∧ c = c2) := fun hh => hl hh.1
    simp [cell, insertTriple, dGet_dUpd, hl, hcon]

/-- `buildTable` over a snoc is one insertion into the smaller table. -/
theorem buildTable_append_single (ts : List (Nat × Category × Nat))
    (l : Nat) (c : Category) (t : Nat) :
    buildTable (ts ++ [(l, c, t)]) = insertTriple (buildTable ts) l c t := by
  simp [buildTable, List.foldl_append]

/-! ## C1: section splitting -/

/-- C1 counterexample: for the report text `riscv64x86_64` — both markers
present, `riscv64` first — the claim says the first marker's section runs
only to the start of the second marker and the sections never overlap.  The
code instead spans `riscv64…` to end-of-text, so the riscv section
(indices 0–13) strictly contains the x86 section (indices 7–13): the
sections overlap. -/
theorem claim_C1_counterexample :
    x86_span (("riscv64x86_64").toList) = some (7, 13) ∧
    riscv_span (("riscv64x86_64").toList) = some (0, 13) ∧
    overlap (7, 13) (0, 13) := by decide

/-- C1 amended: when the first occurrence of `x86_64` ends at or before the
first occurrence of `riscv64`, the splitter produces exactly the claimed
sections: the x86 section spans from its marker to the start of the riscv
marker, and the riscv section spans from its marker to end-of-text (the two
spans are non-overlapping and adjacent).  When `riscv64` occurs first the
sections overlap (see the counterexample). -/
theorem claim_C1_amended (content : List Char) (i k : Nat)
    (hx : firstIdx xm content = some i)
    (hr : firstIdx rm content = some k)
    (hord : i + xm.length ≤ k) :
    x86_span content = some (i, k) ∧
    riscv_span content = some (k, content.length) ∧
    x86_section content = some ((content.drop i).take (k - i)) ∧
    riscv_section content = some (content.drop k) := by
  have hdrop := firstIdx_drop rm content k (i + xm.length) hr hord
  have hspan : x86_span content = some (i, k) := by
    simp only [x86_span, hx, hdrop]
    have : i + xm.length + (k - (i + xm.length)) = k := by omega
    rw [this]
  refine ⟨hspan, ?_, ?_, ?_⟩
  · rw [riscv_span, hr]; rfl
  · rw [x86_section, hspan]; rfl
  · rw [riscv_section, riscv_span, hr]; rfl

/-- C1 amended, instantiated: the report text `x86_64 A riscv64 B` splits
into the adjacent sections `[0, 9)` and `[9, 18)`. -/
theorem claim_C1_amended_witness :
    x86_span (("x86_64 A riscv64 B").toList) = some (0, 9) ∧
    riscv_span (("x86_64 A riscv64 B").toList) =
      some (9, (("x86_64 A riscv64 B").toList).length) ∧
    x86_section (("x86_64 A riscv64 B").toList) =
      some (((("x86_64 A riscv64 B").toList).drop 0).take (9 - 0)) ∧
    riscv_section (("x86_64 A riscv64 B").toList) =
      some ((("x86_64 A riscv64 B").toList).drop 9) :=
  claim_C1_amended (("x86_64 A riscv64 B").toList) 0 9
    (by decide) (by decide) (by decide)

/-! ## C5, C6: concrete line parsing and classification -/

/-- C5: the line `compile -O2 1234ms` parses to the pair
`("compile -O2", 1234)` and classifies as category `native`,
optimization level 2. -/
theorem claim_C5 :
    findall (("compile -O2 1234ms").toList) =
      [((("compile -O2").toList), 1234)] ∧
    classify (("compile -O2").toList) =
      Except.ok (some (2, Category.native)) := by decide

/-- C6: the line `x86_64-gcc -O3 transpile_O3.c 987ms` parses to the method
description `gcc -O3 transpile_O3.c` (the regex word `\w+` cannot cross the
hyphen of `x86_64-gcc`, so the match starts at `gcc`) with time 987, and
classifies as category `gcc` with level 3, the digit three characters from
the end of the description. -/
theorem claim_C6 :
    findall (("x86_64-gcc -O3 transpile_O3.c 987ms").toList) =
      [((("gcc -O3 transpile_O3.c").toList), 987)] ∧
    classify (("gcc -O3 transpile_O3.c").toList) =
      Except.ok (some (3, Category.gcc)) ∧
    pyIndexNeg (("gcc -O3 transpile_O3.c").toList) 3 = Except.ok '3' := by decide

/-! ## C7: missing platform marker -/

/-- C7: when either platform marker is absent from the report text, the
failed `re.search` makes `.group(0)` raise `AttributeError` and the whole
run aborts before any chart is produced (the result carries no charts). -/
theorem claim_C7 (content : List Char)
    (h : firstIdx xm content = none ∨ firstIdx rm content = none) :
    generate_charts content = Except.error PyError.attributeError := by
  rcases h with h | h
  · have hxs : x86_section content = none := by
      simp [x86_section, x86_span, h]
    unfold generate_charts
    rw [hxs]
    rfl
  · cases hx : firstIdx xm content with
    | none =>
      have hxs : x86_section content = none := by
        simp [x86_section, x86_span, hx]
      unfold generate_charts
      rw [hxs]
      rfl
    | some i =>
      have hrd := firstIdx_drop_none rm content (i + xm.length) h
      have hxs : x86_section content =
          some ((content.drop i).take (content.length - i)) := by
        simp [x86_section, x86_span, hx, hrd]
      have hrs : riscv_section content = none := by
        simp [riscv_section, riscv_span, h]
      unfold generate_charts
      rw [hxs, hrs]
      rfl

/-- C7 instantiated: a report text with no `x86_64` marker aborts with
`AttributeError`. -/
theorem claim_C7_witness :
    generate_charts (("no markers here").toList) =
      Except.error PyError.attributeError :=
  claim_C7 (("no markers here").toList) (Or.inl (by decide))

/-! ## C8: last-write-wins on duplicate keys -/

/-- Folding matches into a table commutes with first collecting the
classified triples and then building the table. -/
theorem tableFold_eq_tripleFold (ms : List (List Char × Nat))
    (ts0 : List (Nat × Category × Nat)) :
    List.foldlM tableStep (buildTable ts0) ms =
      (List.foldlM tripleStep ts0 ms).map buildTable := by
  induction ms generalizing ts0 with
  | nil => rfl
  | cons mt rest ih =>
    rw [List.foldlM_cons, List.foldlM_cons]
    cases hc : classify mt.1 with
    | error e =>
      simp only [tableStep, tripleStep, hc, except_bind_error]
      rfl
    | ok o =>
      cases o with
      | none =>
        simp only [tableStep, tripleStep, hc, except_bind_ok]
        exact ih ts0
      | some lc =>
        simp only [tableStep, tripleStep, hc, except_bind_ok]
        rw [← buildTable_append_single ts0 lc.1 lc.2 mt.2]
        exact ih (ts0 ++ [(lc.1, lc.2, mt.2)])

/-- `parse_section` equals building the table from the classified
triples. -/
theorem parse_section_eq (s : List Char) :
    parse_section s = (classifiedTriples s).map buildTable :=
  tableFold_eq_tripleFold (findall s) []

/-- Cell lookup after folding triples into a table: the last write if one
exists, otherwise whatever the initial table held. -/
theorem cell_foldTriples (ts : List (Nat × Category × Nat)) (d0 : BTable)
    (lvl : Nat) (cat : Category) :
    cell (ts.foldl (fun d tr => insertTriple d tr.1 tr.2.1 tr.2.2) d0) lvl cat =
      match lastWrite lvl cat ts with
      | some v => some v
      | none => cell d0 lvl cat := by
  induction ts generalizing d0 with
  | nil => rfl
  | cons tr rest ih =>
    rw [List.foldl_cons, lastWrite]
    rw [ih (insertTriple d0 tr.1 tr.2.1 tr.2.2)]
    cases hlw : lastWrite lvl cat rest with
    | some v => rfl
    | none =>
      rw [cell_insertTriple]
      by_cases hm : tr.1 = lvl ∧ tr.2.1 = cat
      · simp [hm]
      · simp [hm]

/-- Cell lookup in a built table is exactly the last write. -/
theorem cell_buildTable (ts : List (Nat × Category × Nat))
    (lvl : Nat) (cat : Category) :
    cell (buildTable ts) lvl cat = lastWrite lvl cat ts := by
  have h := cell_foldTriples ts [] lvl cat
  cases hlw : lastWrite lvl cat ts with
  | some v => rw [hlw] at h; exact h
  | none => rw [hlw] at h; exact h

/-- A key occurring at least once has a last write. -/
theorem lastWrite_isSome_of_countP (ts : List (Nat × Category × Nat))
    (lvl : Nat) (cat : Category)
    (h : 1 ≤ ts.countP (fun tr => decide (tr.1 = lvl ∧ tr.2.1 = cat))) :
    (lastWrite lvl cat ts).isSome := by
  induction ts with
  | nil => simp [List.countP_nil] at h
  | cons tr rest ih =>
    rw [lastWrite]
    cases hlw : lastWrite lvl cat rest with
    | some v => simp
    | none =>
      rw [List.countP_cons] at h
      by_cases hm : tr.1 = lvl ∧ tr.2.1 = cat
      · simp [hm]
      · have h1 : 1 ≤ rest.countP (fun tr => decide (tr.1 = lvl ∧ tr.2.1 = cat)) := by
          simpa [hm] using h
        have h2 := ih h1
        rw [hlw] at h2
        cases h2

/-- C8: whenever the classified triples of a section contain two or more
occurrences of the same (level, category) key, the parse succeeds without
any error and the built table holds exactly the elapsed time of the last
such occurrence in text order. -/
theorem claim_C8 (s : List Char) (ts : List (Nat × Category × Nat))
    (lvl : Nat) (cat : Category)
    (hts : classifiedTriples s = Except.ok ts)
    (hdup : 2 ≤ ts.countP (fun tr => decide (tr.1 = lvl ∧ tr.2.1 = cat))) :
    ∃ v, parse_section s = Except.ok (buildTable ts) ∧
      lastWrite lvl cat ts = some v ∧
      cell (buildTable ts) lvl cat = some v := by
  have hps : parse_section s = Except.ok (buildTable ts) := by
    rw [parse_section_eq, hts]; rfl
  have hs : (lastWrite lvl cat ts).isSome :=
    lastWrite_isSome_of_countP ts lvl cat (by omega)
  obtain ⟨v, hv⟩ := Option.isSome_iff_exists.mp hs
  exact ⟨v, hps, hv, by rw [cell_buildTable, hv]⟩

/-- C8 instantiated: the section `compile -O1 100ms compile -O1 200ms`
classifies to two triples with key (1, native); the table keeps the later
time 200. -/
theorem claim_C8_witness :
    ∃ v, parse_section (("compile -O1 100ms compile -O1 200ms").toList) =
        Except.ok (buildTable [(1, Category.native, 100), (1, Category.native, 200)]) ∧
      lastWrite 1 Category.native
        [(1, Category.native, 100), (1, Category.native, 200)] = some v ∧
      cell (buildTable [(1, Category.native, 100), (1, Category.native, 200)])
        1 Category.native = some v :=
  claim_C8 (("compile -O1 100ms compile -O1 200ms").toList)
    [(1, Category.native, 100), (1, Category.native, 200)]
    1 Category.native (by decide) (by decide)

/-! ## C9: absolute-runtime chart and missing cells -/

/-- C9: every bar drawn by `create_bar_chart` (a total function — the
renderer cannot raise) satisfies: a bar whose table cell is absent has
height 0 and carries no value annotation, and every bar of height `> 0`
carries its value as annotation. -/
theorem claim_C9 (data : BTable) (inc : Bool) (b : Bar)
    (hb : b ∈ create_bar_chart data inc) :
    (cell data b.level b.category = none → b.value = 0 ∧ b.annotation = none) ∧
    (0 < b.value → b.annotation = some b.value) := by
  simp only [create_bar_chart, List.mem_flatMap, List.mem_map] at hb
  obtain ⟨lvl, hlvl, cat, hcat, hbdef⟩ := hb
  subst hbdef
  constructor
  · intro hnone
    dsimp only at hnone ⊢
    cases hrow : dGet lvl data with
    | none => simp [hrow, dGet]
    | some row =>
      simp only [cell, hrow] at hnone
      simp [hrow, hnone]
  · intro hpos
    simp only at hpos ⊢
    rw [if_pos hpos]

/-- C9 instantiated: with only (level 0, native) measured, the interpreter
bar at level 0 exists, has height 0 and no annotation. -/
theorem claim_C9_witness :
    (cell [(0, [(Category.native, 5)])] 0 Category.interpreter = none →
      (0 : Nat) = 0 ∧ (none : Option Nat) = none) ∧
    ((0 : Nat) < 0 → (none : Option Nat) = some 0) :=
  claim_C9 [(0, [(Category.native, 5)])] true
    { level := 0, category := Category.interpreter, value := 0, annotation := none }
    (by decide)

/-! ## Speedup calculator lemmas -/

theorem mem_allCategories (cat : Category) : cat ∈ allCategories := by
  cases cat <;> simp [allCategories]

/-- A successful `speedupStep` keeps every accumulator entry. -/
theorem speedupStep_mem (data : BTable) (lvls : List Nat)
    (acc acc2 : List (Category × List Rat)) (c : Category)
    (h : speedupStep data lvls acc c = Except.ok acc2) :
    ∀ p ∈ acc, p ∈ acc2 := by
  cases h0 : dGet 0 data with
  | none =>
    simp only [speedupStep, h0] at h
    cases h
  | some row0 =>
    cases hb : dGet c row0 with
    | none =>
      simp only [speedupStep, h0, hb] at h
      cases h
      exact fun p hp => hp
    | some b0 =>
      simp only [speedupStep, h0, hb] at h
      cases hm : List.mapM (speedupElem data b0 c) lvls with
      | error e => rw [hm, except_bind_error] at h; cases h
      | ok vs =>
        rw [hm, except_bind_ok] at h
        cases h
        exact fun p hp => List.mem_append_left _ hp

/-- A successful category fold keeps every accumulator entry. -/
theorem speedupFold_mem (data : BTable) (lvls : List Nat) (cats : List Category) :
    ∀ (acc res : List (Category × List Rat)),
      List.foldlM (speedupStep data lvls) acc cats = Except.ok res →
      ∀ p ∈ acc, p ∈ res := by
  induction cats with
  | nil =>
    intro acc res h p hp
    have h2 : Except.ok acc = Except.ok res := h
    cases h2
    exact hp
  | cons c cs ih =>
    intro acc res h p hp
    rw [List.foldlM_cons] at h
    cases hs : speedupStep data lvls acc c with
    | error e => rw [hs, except_bind_error] at h; cases h
    | ok acc2 =>
      rw [hs, except_bind_ok] at h
      exact ih acc2 res h p (speedupStep_mem data lvls acc acc2 c hs p hp)

/-- A table without a baseline row makes the speedup computation raise
`KeyError` at the unconditional `data[0]` access. -/
theorem speedups_no0 (data : BTable) (h0 : dGet 0 data = none) :
    speedups data = Except.error PyError.keyError := by
  simp only [speedups, allCategories]
  rw [List.foldlM_cons]
  have hstep : speedupStep data ((sortKeys data).tail) [] Category.interpreter =
      Except.error PyError.keyError := by
    simp only [speedupStep, h0]
  rw [hstep, except_bind_error]

/-- Provenance of speedup entries: every pair of the result of the category
fold is either inherited from the accumulator, or belongs to a category
with a baseline cell whose ratio list is the element-wise result of
`speedupElem` over the plotted levels. -/
theorem speedupFold_spec (data : BTable) (lvls : List Nat)
    (row0 : List (Category × Nat)) (h00 : dGet 0 data = some row0)
    (cats : List Category) :
    ∀ (acc res : List (Category × List Rat)),
      List.foldlM (speedupStep data lvls) acc cats = Except.ok res →
      ∀ p ∈ res, p ∈ acc ∨ ∃ b0,
        dGet p.1 row0 = some b0 ∧
        List.mapM (speedupElem data b0 p.1) lvls = Except.ok p.2 := by
  induction cats with
  | nil =>
    intro acc res h p hp
    have h2 : Except.ok acc = Except.ok res := h
    cases h2
    exact Or.inl hp
  | cons c cs ih =>
    intro acc res h p hp
    rw [List.foldlM_cons] at h
    cases hb : dGet c row0 with
    | none =>
      simp only [speedupStep, h00, hb, except_bind_ok] at h
      exact ih acc res h p hp
    | some b0 =>
      simp only [speedupStep, h00, hb] at h
      cases hm : List.mapM (speedupElem data b0 c) lvls with
      | error e => rw [hm, except_bind_error, except_bind_error] at h; cases h
      | ok vs =>
        rw [hm, except_bind_ok, except_bind_ok] at h
        rcases ih (acc ++ [(c, vs)]) res h p hp with hmem | hprop
        · rcases List.mem_append.mp hmem with h1 | h2
          · exact Or.inl h1
          · have hpcv : p = (c, vs) := by simpa using h2
            subst hpcv
            exact Or.inr ⟨b0, hb, hm⟩
        · exact Or.inr hprop

/-- A successful `mapM` computes element-wise. -/
theorem mapM_ok_get (f : Nat → Except PyError Rat) :
    ∀ (lvls : List Nat) (vs : List Rat),
      List.mapM f lvls = Except.ok vs →
      ∀ (i : Nat) (lvl : Nat), lvls.get? i = some lvl →
      ∃ v, vs.get? i = some v ∧ f lvl = Except.ok v := by
  intro lvls
  induction lvls with
  | nil => intro vs h i lvl hi; simp at hi
  | cons c cs ih =>
    intro vs h i lvl hi
    rw [List.mapM_cons] at h
    cases hf : f c with
    | error e => rw [hf, except_bind_error] at h; cases h
    | ok v =>
      rw [hf, except_bind_ok] at h
      cases hm : List.mapM f cs with
      | error e => rw [hm, except_bind_error] at h; cases h
      | ok ws =>
        rw [hm, except_bind_ok] at h
        have h2 : Except.ok (v :: ws) = Except.ok vs := h
        cases h2
        cases i with
        | zero =>
          have hcl : c = lvl := by simpa using hi
          subst hcl
          exact ⟨v, rfl, hf⟩
        | succ i2 =>
          have hi2 : cs.get? i2 = some lvl := by simpa using hi
          obtain ⟨w, hw1, hw2⟩ := ih ws hm i2 lvl hi2
          exact ⟨w, by simpa using hw1, hw2⟩

/-- A `mapM` with one failing element fails. -/
theorem mapM_error_of_elem (f : Nat → Except PyError Rat) (lvls : List Nat)
    (lvl : Nat) (hl : lvl ∈ lvls) (e0 : PyError)
    (he : f lvl = Except.error e0) :
    ∃ e, List.mapM f lvls = Except.error e := by
  induction lvls with
  | nil => cases hl
  | cons c cs ih =>
    rw [List.mapM_cons]
    cases hf : f c with
    | error e1 => exact ⟨e1, by rw [except_bind_error]⟩
    | ok v =>
      rcases List.mem_cons.mp hl with rfl | hl2
      · rw [he] at hf; cases hf
      · obtain ⟨e, h2⟩ := ih hl2
        exact ⟨e, by rw [except_bind_ok, h2, except_bind_error]⟩

/-- If one visited category makes `speedupStep` fail from every
accumulator, the whole category fold fails. -/
theorem speedupFold_error (data : BTable) (lvls : List Nat)
    (cats : List Category) (cat : Category) (hc : cat ∈ cats)
    (hstep : ∀ acc, ∃ e, speedupStep data lvls acc cat = Except.error e) :
    ∀ acc, ∃ e, List.foldlM (speedupStep data lvls) acc cats = Except.error e := by
  induction cats with
  | nil => cases hc
  | cons c cs ih =>
    intro acc
    rw [List.foldlM_cons]
    cases hs : speedupStep data lvls acc c with
    | error e => exact ⟨e, by rw [except_bind_error]⟩
    | ok acc2 =>
      rcases List.mem_cons.mp hc with rfl | hc2
      · obtain ⟨e, he⟩ := hstep acc
        rw [he] at hs; cases hs
      · obtain ⟨e, he⟩ := ih hc2 acc2
        exact ⟨e, by rw [except_bind_ok]; exact he⟩

/-- A zero time at a visited (level, category) cell of a baseline category
makes `speedupStep` fail from every accumulator. -/
theorem speedupStep_zero (data : BTable) (lvls : List Nat) (cat : Category)
    (row0 row : List (Category × Nat)) (b0 lvl : Nat)
    (h0 : dGet 0 data = some row0) (hb : dGet cat row0 = some b0)
    (hl : lvl ∈ lvls) (hrow : dGet lvl data = some row)
    (hz : dGet cat row = some 0) :
    ∀ acc, ∃ e, speedupStep data lvls acc cat = Except.error e := by
  intro acc
  have helem : speedupElem data b0 cat lvl = Except.error PyError.zeroDivisionError := by
    simp [speedupElem, hrow, hz]
  obtain ⟨e, he⟩ := mapM_error_of_elem (speedupElem data b0 cat) lvls lvl hl _ helem
  refine ⟨e, ?_⟩
  simp only [speedupStep, h0, hb]
  rw [he, except_bind_error]

/-- The speedup renderer never draws a bar of value 0: the zero sentinel of
the speedup list (and only it) is skipped. -/
theorem speedupBars_ne_zero (lvls : List Nat) (sp : List (Category × List Rat))
    (b : SBar) (hb : b ∈ speedupBars lvls sp) : b.value ≠ 0 := by
  simp only [speedupBars, List.mem_flatMap, List.mem_filterMap, List.mem_range] at hb
  obtain ⟨i, hi, cv, hcv, hmatch⟩ := hb
  cases hg : cv.2.get? i with
  | none =>
    simp only [hg] at hmatch
    cases hmatch
  | some v =>
    simp only [hg] at hmatch
    by_cases hv : v = 0
    · rw [if_pos hv] at hmatch; cases hmatch
    · rw [if_neg hv] at hmatch
      cases hmatch
      exact hv

/-! ## C10: table without a baseline level -/

/-- C10: a table with levels but no level 0 makes the speedup computation
raise `KeyError` at the unconditional `data[0]` access, so no speedup chart
is produced. -/
theorem claim_C10 (data : BTable) (hne : data ≠ []) (h0 : dGet 0 data = none) :
    speedups data = Except.error PyError.keyError ∧
    create_speedup_chart data = Except.error PyError.keyError := by
  have hs : speedups data = Except.error PyError.keyError := speedups_no0 data h0
  refine ⟨hs, ?_⟩
  simp only [create_speedup_chart, hs, except_bind_error]

/-- C10 instantiated: the table with only level 1 raises `KeyError`. -/
theorem claim_C10_witness :
    speedups [(1, [(Category.native, 5)])] = Except.error PyError.keyError ∧
    create_speedup_chart [(1, [(Category.native, 5)])] =
      Except.error PyError.keyError :=
  claim_C10 [(1, [(Category.native, 5)])] (by decide) (by decide)

/-! ## C2: the missing-cell sentinel of the speedup calculator -/

/-- C2 counterexample: for the table {0: {interpreter: 20000, native: 500},
1: {interpreter: 10000}} the claim says the calculator yields no entry (a
sentinel distinct from a zero ratio) at level 1 for native.  The code
yields the entry `native ↦ [0]`: the sentinel IS the number 0. -/
theorem claim_C2_counterexample :
    speedups [(0, [(Category.interpreter, 20000), (Category.native, 500)]),
              (1, [(Category.interpreter, 10000)])] =
      Except.ok [(Category.interpreter, [(2 : Rat)]),
                 (Category.native, [(0 : Rat)])] := by decide

/-- C2 amended: at each non-baseline level where the (level, category) cell
is absent, the Speedup Calculator contributes the number 0 as the
missing-value sentinel, and the speedup renderer draws no bar (and hence no
label) for any zero entry; a genuine zero ratio is indistinguishable from
the sentinel. -/
theorem claim_C2_amended (data : BTable) (cat : Category)
    (sp : List (Category × List Rat)) (vs : List Rat) (i lvl : Nat)
    (row : List (Category × Nat))
    (hsp : speedups data = Except.ok sp)
    (hmem : (cat, vs) ∈ sp)
    (hlvl : ((sortKeys data).tail).get? i = some lvl)
    (hrow : dGet lvl data = some row)
    (hcell : dGet cat row = none) :
    vs.get? i = some 0 ∧
    ∀ b ∈ speedupBars ((sortKeys data).tail) sp, b.value ≠ 0 := by
  obtain ⟨row0, h00⟩ : ∃ row0, dGet 0 data = some row0 := by
    cases h0 : dGet 0 data with
    | none => rw [speedups_no0 data h0] at hsp; cases hsp
    | some row0 => exact ⟨row0, rfl⟩
  have hspec := speedupFold_spec data ((sortKeys data).tail) row0 h00 allCategories
    [] sp hsp (cat, vs) hmem
  rcases hspec with hmem0 | ⟨b0, hb0, hmapm⟩
  · simp at hmem0
  · obtain ⟨v, hv1, hv2⟩ :=
      mapM_ok_get (speedupElem data b0 cat) ((sortKeys data).tail) vs hmapm i lvl hlvl
    have helem : speedupElem data b0 cat lvl = Except.ok 0 := by
      simp [speedupElem, hrow, hcell]
    rw [helem] at hv2
    cases hv2
    exact ⟨hv1, fun b hb => speedupBars_ne_zero _ _ b hb⟩

/-- C2 amended, instantiated on the table of the claim: the native list is
`[0]` at position 0 (level 1), and the rendered speedup bars all have
non-zero value, so no native bar is drawn. -/
theorem claim_C2_amended_witness :
    ([(0 : Rat)].get? 0 = some 0) ∧
    ∀ b ∈ speedupBars
        ((sortKeys [(0, [(Category.interpreter, 20000), (Category.native, 500)]),
                    (1, [(Category.interpreter, 10000)])]).tail)
        [(Category.interpreter, [(2 : Rat)]), (Category.native, [(0 : Rat)])],
      b.value ≠ 0 :=
  claim_C2_amended
    [(0, [(Category.interpreter, 20000), (Category.native, 500)]),
     (1, [(Category.interpreter, 10000)])]
    Category.native
    [(Category.interpreter, [(2 : Rat)]), (Category.native, [(0 : Rat)])]
    [(0 : Rat)] 0 1 [(Category.interpreter, 10000)]
    (by decide) (by decide) (by decide) (by decide) (by decide)

/-! ## C3: division by zero in the speedup calculator -/

/-- C3 counterexample: a category with baseline time 0 does not make the
speedup computation fail — the claim says any speedup for that category
must fail.  For {0: {interpreter: 0}, 1: {interpreter: 5}} the division
`0 / 5` succeeds and yields the ratio 0 (which the renderer then drops as
if it were the missing-value sentinel). -/
theorem claim_C3_counterexample :
    speedups [(0, [(Category.interpreter, 0)]), (1, [(Category.interpreter, 5)])] =
      Except.ok [(Category.interpreter, [(0 : Rat)])] := by decide

/-- C3 amended: the computation fails exactly on a zero *denominator*: a
zero time at a visited non-baseline level of a baseline-present category
makes `speedups` raise (a `ZeroDivisionError` inside the comprehension); a
zero baseline alone raises nothing and produces 0.0 ratios (see the
counterexample). -/
theorem claim_C3_amended (data : BTable) (cat : Category)
    (row0 row : List (Category × Nat)) (b0 lvl : Nat)
    (h0 : dGet 0 data = some row0) (hb : dGet cat row0 = some b0)
    (hl : lvl ∈ (sortKeys data).tail)
    (hrow : dGet lvl data = some row) (hz : dGet cat row = some 0) :
    ∃ e, speedups data = Except.error e := by
  have hstep := speedupStep_zero data ((sortKeys data).tail) cat row0 row b0 lvl
    h0 hb hl hrow hz
  obtain ⟨e, he⟩ := speedupFold_error data ((sortKeys data).tail) allCategories cat
    (mem_allCategories cat) hstep []
  exact ⟨e, he⟩

/-- C3 amended, instantiated: {0: {native: 10}, 1: {native: 0}} fails. -/
theorem claim_C3_amended_witness :
    ∃ e, speedups [(0, [(Category.native, 10)]), (1, [(Category.native, 0)])] =
      Except.error e :=
  claim_C3_amended [(0, [(Category.native, 10)]), (1, [(Category.native, 0)])]
    Category.native [(Category.native, 10)] [(Category.native, 0)] 10 1
    (by decide) (by decide) (by decide) (by decide) (by decide)

/-! ## C4: level extraction for interpreter and native -/

/-- C4 counterexample: a method description of the reference-compiler shape
classified as interpreter.  The claim says the level is the digit after the
final `_O` token (here 2); the code computes `int(method[-1])` =
`int("c")`, which raises `ValueError` and aborts the whole section
parse. -/
theorem claim_C4_counterexample :
    findall (("interpret transpile_O2.c 10ms").toList) =
      [((("interpret transpile_O2.c").toList), 10)] ∧
    classify (("interpret transpile_O2.c").toList) =
      Except.error PyError.valueError ∧
    parse_section (("interpret transpile_O2.c 10ms").toList) =
      Except.error PyError.valueError := by decide

/-- C4 amended: for interpreter and native descriptions the level is
`int(description[-1])`.  This equals the digit after the final `-O` token
for flag-shaped descriptions `… -O<digit>`, but a description of the
reference-compiler shape (ending in `.c`) raises `ValueError` instead of
yielding the digit after `_O`. -/
theorem claim_C4_amended :
    (∀ (w : List Char) (d : Char), d.isDigit = true →
      strContains (("interpret").toList) (w ++ (" -O").toList ++ [d]) = true →
      classify (w ++ (" -O").toList ++ [d]) =
        Except.ok (some (d.toNat - 48, Category.interpreter))) ∧
    (∀ (w : List Char) (d : Char), d.isDigit = true →
      strContains (("interpret").toList) (w ++ (" -O").toList ++ [d]) = false →
      strContains (("compile").toList) (w ++ (" -O").toList ++ [d]) = true →
      classify (w ++ (" -O").toList ++ [d]) =
        Except.ok (some (d.toNat - 48, Category.native))) ∧
    (∀ (v : List Char),
      strContains (("interpret").toList) (v ++ ((".c").toList)) = true →
      classify (v ++ ((".c").toList)) = Except.error PyError.valueError) := by
  refine ⟨?_, ?_, ?_⟩
  · intro w d hd hc
    have hidx : pyIndexNeg (w ++ (" -O").toList ++ [d]) 1 = Except.ok d := by
      simp [pyIndexNeg, List.reverse_append]
    unfold classify
    rw [if_pos hc, hidx, except_bind_ok]
    unfold pyInt
    rw [if_pos hd, except_bind_ok]
  · intro w d hd hc1 hc2
    have hidx : pyIndexNeg (w ++ (" -O").toList ++ [d]) 1 = Except.ok d := by
      simp [pyIndexNeg, List.reverse_append]
    have hc1n : ¬ strContains (("interpret").toList) (w ++ (" -O").toList ++ [d]) = true := by
      rw [hc1]; exact Bool.false_ne_true
    unfold classify
    rw [if_neg hc1n, if_pos hc2, hidx, except_bind_ok]
    unfold pyInt
    rw [if_pos hd, except_bind_ok]
  · intro v hc
    have hidx : pyIndexNeg (v ++ ((".c").toList)) 1 = Except.ok 'c' := by
      simp [pyIndexNeg, List.reverse_append]
    have hcd : ¬ ('c'.isDigit = true) := by decide
    unfold classify
    rw [if_pos hc, hidx, except_bind_ok]
    unfold pyInt
    rw [if_neg hcd, except_bind_error]

/-- C4 amended, instantiated: `interpret -O3` classifies to (3,
interpreter) via its last character. -/
theorem claim_C4_amended_witness :
    classify ((("interpret").toList) ++ ((" -O").toList) ++ ['3']) =
      Except.ok (some ('3'.toNat - 48, Category.interpreter)) :=
  claim_C4_amended.1 (("interpret").toList) '3' (by decide) (by decide)

end Brainiac
